import Mathlib

/-!
Verification development for the AI Sous-Chef CLI agent (`main.py`).

This file gives a shallow embedding of the program's two specified
components — the Response Interpreter (the classification step of
`SousChefAgent.ask`) together with the tool-dispatch table
(`SousChefAgent._call_tool`), and the persistent Memory Store
(`_load_memory` / `_save_memory` and the mutating tool handlers) — plus
the calendar export (`create_calendar_file`), and proves or refutes the
frozen claims about them.

Conventions of the embedding:
- Python JSON values are modelled by the inductive `Json`.  Numbers keep
  their source lexeme (a decimal model of Python's number parsing; the
  non-standard `NaN`/`Infinity` extensions of Python's `json` module are
  not modelled, and no claim exercises them).
- `json.loads` is modelled by `loads`, a fuel-driven recursive-descent
  reader of the JSON grammar; the fuel `2*length+4` dominates the
  recursion depth of any input, so it never runs out.
- Python exceptions are modelled with `Except PyErr` (or an
  `Option PyErr` component for mutating handlers, since a Python object
  keeps mutations made before an exception escapes).
- `datetime.date` values are modelled as proleptic-Gregorian day counts
  (`Int`), with `daysFromCivilN` / `civilFromDaysN` the standard civil
  calendar conversions used to model `strptime`/`str(date)`.
- The multi-user memory file is modelled by `DiskFile`: `missing`,
  `corrupt` (any content that `json.load` rejects), or a parsed `Json`
  value; `json.dump`/`json.load` of a well-formed value round-trip, so
  the file is carried at the value level.
- The external LLM transport consumed by `generate_meal_plan` /
  `generate_recipe` is an external collaborator; it is abstracted by an
  `LlmOracle` parameter, and theorems quantify over it.
-/

namespace SousChef

/-- A Python/JSON value, as produced by `json.loads`. -/
inductive Json where
  | null
  | bool (b : Bool)
  | num (lexeme : String)
  | str (s : String)
  | arr (elems : List Json)
  | obj (fields : List (String × Json))

mutual
def Json.beq : Json → Json → Bool
  | .null, .null => true
  | .bool a, .bool b => a == b
  | .num a, .num b => a == b
  | .str a, .str b => a == b
  | .arr xs, .arr ys => Json.beqList xs ys
  | .obj xs, .obj ys => Json.beqFields xs ys
  | _, _ => false
def Json.beqList : List Json → List Json → Bool
  | [], [] => true
  | x :: xs, y :: ys => Json.beq x y && Json.beqList xs ys
  | _, _ => false
def Json.beqFields : List (String × Json) → List (String × Json) → Bool
  | [], [] => true
  | (k, v) :: xs, (l, w) :: ys => k == l && Json.beq v w && Json.beqFields xs ys
  | _, _ => false
end

mutual
theorem Json.beq_iff : ∀ a b : Json, Json.beq a b = true ↔ a = b
  | .null, b => by cases b <;> simp [Json.beq]
  | .bool a, b => by cases b <;> simp [Json.beq]
  | .num a, b => by cases b <;> simp [Json.beq]
  | .str a, b => by cases b <;> simp [Json.beq]
  | .arr xs, b => by
      cases b <;> simp [Json.beq]
      exact Json.beqList_iff xs _
  | .obj xs, b => by
      cases b <;> simp [Json.beq]
      exact Json.beqFields_iff xs _
theorem Json.beqList_iff : ∀ xs ys : List Json, Json.beqList xs ys = true ↔ xs = ys
  | [], ys => by cases ys <;> simp [Json.beqList]
  | x :: xs, ys => by
      cases ys with
      | nil => simp [Json.beqList]
      | cons y ys => simp [Json.beqList, Json.beq_iff x y, Json.beqList_iff xs ys]
theorem Json.beqFields_iff :
    ∀ xs ys : List (String × Json), Json.beqFields xs ys = true ↔ xs = ys
  | [], ys => by cases ys <;> simp [Json.beqFields]
  | (k, v) :: xs, ys => by
      cases ys with
      | nil => simp [Json.beqFields]
      | cons y ys =>
        obtain ⟨l, w⟩ := y
        simp [Json.beqFields, Json.beq_iff v w, Json.beqFields_iff xs ys, and_assoc]
end

instance : DecidableEq Json := fun a b =>
  decidable_of_iff (Json.beq a b = true) (Json.beq_iff a b)

/-- Python exception kinds that the embedded code can raise.  Only the
`KeyError` payload matters to any claim, so the other kinds carry no
message detail. -/
inductive PyErr where
  | keyError (k : String)
  | typeError
  | valueError
  | attributeError
deriving DecidableEq

/-- The message text interpolated by `f"... : {e}"` in `ask`'s exception
handler.  Python renders `KeyError('k')` as `'k'`; for the other kinds
only the presence of an error matters to the claims, not the exact
wording, so a short tag stands in for the Python message. -/
def PyErr.msg : PyErr → String
  | .keyError k => "\x27" ++ k ++ "\x27"
  | .typeError => "TypeError"
  | .valueError => "ValueError"
  | .attributeError => "AttributeError"

/-- First-match lookup in a Python dict modelled as an association list. -/
def jlook : List (String × Json) → String → Option Json
  | [], _ => none
  | (k, v) :: rest, key => if k = key then some v else jlook rest key

/-- Python dict assignment `d[k] = v`: replace the value at the first
occurrence of `k`, else append (insertion order is preserved, and the
position of an existing key is kept). -/
def setKey : List (String × Json) → String → Json → List (String × Json)
  | [], key, v => [(key, v)]
  | (k, w) :: rest, key, v =>
    if k = key then (k, v) :: rest else (k, w) :: setKey rest key v

/-- JSON-grammar whitespace (also what `json.loads` skips). -/
def isJsonWs (c : Char) : Bool :=
  c == ' ' || c == '\t' || c == '\n' || c == '\r'

def skipWs : List Char → List Char
  | [] => []
  | c :: cs => if isJsonWs c then skipWs cs else c :: cs

def hexVal (c : Char) : Option Nat :=
  if '0' ≤ c ∧ c ≤ '9' then some (c.toNat - 48)
  else if 'a' ≤ c ∧ c ≤ 'f' then some (c.toNat - 87)
  else if 'A' ≤ c ∧ c ≤ 'F' then some (c.toNat - 55)
  else none

def escChar (c : Char) : Option Char :=
  if c == '\x22' then some '\x22'
  else if c == '\\' then some '\\'
  else if c == '/' then some '/'
  else if c == 'b' then some (Char.ofNat 8)
  else if c == 'f' then some (Char.ofNat 12)
  else if c == 'n' then some '\n'
  else if c == 'r' then some '\r'
  else if c == 't' then some '\t'
  else none

/-- Body of a JSON string literal, after the opening quote: returns the
decoded characters and the input remaining after the closing quote.
Lone-surrogate `\uXXXX` escapes (which strict Python accepts but which
denote no Unicode scalar) are rejected; no claim exercises them. -/
def parseStrBody : List Char → Option (List Char × List Char)
  | [] => none
  | '\x22' :: cs => some ([], cs)
  | '\\' :: 'u' :: h1 :: h2 :: h3 :: h4 :: cs =>
    match hexVal h1, hexVal h2, hexVal h3, hexVal h4 with
    | some a, some b, some c, some d =>
      let n := ((a * 16 + b) * 16 + c) * 16 + d
      if n < 0xd800 ∨ 0xdfff < n then
        (parseStrBody cs).map (fun p => (Char.ofNat n :: p.1, p.2))
      else none
    | _, _, _, _ => none
  | '\\' :: c :: cs =>
    match escChar c with
    | some e => (parseStrBody cs).map (fun p => (e :: p.1, p.2))
    | none => none
  | c :: cs =>
    if c.toNat < 32 then none
    else (parseStrBody cs).map (fun p => (c :: p.1, p.2))

/-- A JSON number lexeme per the JSON grammar (strict mode, as Python's
`json.loads` enforces: no leading zeros, no leading `+`, a digit required
after `.` and after the exponent marker). -/
def parseNum (cs : List Char) : Option (String × List Char) :=
  let (neg, cs1) : List Char × List Char :=
    match cs with
    | '-' :: t => (['-'], t)
    | _ => ([], cs)
  match cs1 with
  | [] => none
  | c :: t =>
    if ¬ c.isDigit then none
    else
      let (ipart, r1) : List Char × List Char :=
        if c = '0' then ([c], t)
        else
          let (ds, r) := t.span (·.isDigit)
          (c :: ds, r)
      let fr : Option (List Char × List Char) :=
        match r1 with
        | '.' :: u =>
          match u.span (·.isDigit) with
          | ([], _) => none
          | (ds, r) => some ('.' :: ds, r)
        | _ => some ([], r1)
      match fr with
      | none => none
      | some (fpart, r2) =>
        let ex : Option (List Char × List Char) :=
          match r2 with
          | e :: u =>
            if e = 'e' ∨ e = 'E' then
              let (sgn, u1) : List Char × List Char :=
                match u with
                | '+' :: v => (['+'], v)
                | '-' :: v => (['-'], v)
                | _ => ([], u)
              match u1.span (·.isDigit) with
              | ([], _) => none
              | (ds, r) => some (e :: (sgn ++ ds), r)
            else some ([], r2)
          | [] => some ([], r2)
        match ex with
        | none => none
        | some (epart, r3) => some (String.mk (neg ++ ipart ++ fpart ++ epart), r3)

/-- A parsed JSON object literal becomes a Python dict: on duplicate keys
the last value wins while the first occurrence's position is kept. -/
def dedupFields (flds : List (String × Json)) : List (String × Json) :=
  flds.foldl (fun acc kv => setKey acc kv.1 kv.2) []

mutual
/-- Recursive-descent JSON value reader (the model of `json.loads`),
fuel-indexed for termination.  The open-brace branch returns only `.obj`
values — the fact behind "a brace-delimited span, if it parses, parses
to a dict". -/
def parseValue : Nat → List Char → Option (Json × List Char)
  | 0, _ => none
  | fuel + 1, cs =>
    match skipWs cs with
    | [] => none
    | c :: r =>
      if c == '\x7b' then
        match skipWs r with
        | [] => none
        | d :: r2 =>
          if d == '\x7d' then some (.obj [], r2)
          else
            match parseFieldList fuel (d :: r2) with
            | some (flds, r3) => some (.obj (dedupFields flds), r3)
            | none => none
      else if c == '[' then
        match skipWs r with
        | [] => none
        | d :: r2 =>
          if d == ']' then some (.arr [], r2)
          else
            match parseElemList fuel (d :: r2) with
            | some (es, r3) => some (.arr es, r3)
            | none => none
      else if c == '\x22' then (parseStrBody r).map (fun p => (.str (String.mk p.1), p.2))
      else if ['t', 'r', 'u', 'e'].isPrefixOf (c :: r) then some (.bool true, r.drop 3)
      else if ['f', 'a', 'l', 's', 'e'].isPrefixOf (c :: r) then some (.bool false, r.drop 4)
      else if ['n', 'u', 'l', 'l'].isPrefixOf (c :: r) then some (.null, r.drop 3)
      else (parseNum (c :: r)).map (fun p => (.num p.1, p.2))

/-- One or more `"key": value` fields followed by `\x7d`. -/
def parseFieldList : Nat → List Char → Option (List (String × Json) × List Char)
  | 0, _ => none
  | fuel + 1, cs =>
    match skipWs cs with
    | '\x22' :: r =>
      match parseStrBody r with
      | none => none
      | some (kb, r2) =>
        match skipWs r2 with
        | ':' :: r3 =>
          match parseValue fuel r3 with
          | none => none
          | some (v, r4) =>
            match skipWs r4 with
            | ',' :: r5 =>
              (parseFieldList fuel r5).map (fun p => ((String.mk kb, v) :: p.1, p.2))
            | '\x7d' :: r5 => some ([(String.mk kb, v)], r5)
            | _ => none
        | _ => none
    | _ => none

/-- One or more array elements followed by `]`. -/
def parseElemList : Nat → List Char → Option (List Json × List Char)
  | 0, _ => none
  | fuel + 1, cs =>
    match parseValue fuel cs with
    | none => none
    | some (v, r) =>
      match skipWs r with
      | ',' :: r2 => (parseElemList fuel r2).map (fun p => (v :: p.1, p.2))
      | ']' :: r2 => some ([v], r2)
      | _ => none
end

/-- `json.loads`: parse one value, allow surrounding whitespace, reject
trailing data. -/
def loads (s : String) : Option Json :=
  match parseValue (2 * s.length + 4) s.toList with
  | some (j, rest) => if skipWs rest = [] then some j else none
  | none => none

/-- Whitespace stripped by Python's `str.strip()` with no argument
(restricted to the ASCII whitespace characters; the claims exercise no
non-ASCII whitespace). -/
def isPyWs (c : Char) : Bool :=
  c == ' ' || c == '\t' || c == '\n' || c == '\r' ||
  c == Char.ofNat 11 || c == Char.ofNat 12

/-- Python `s.strip()`. -/
def pyStrip (s : String) : String :=
  String.mk (((s.toList.dropWhile isPyWs).reverse.dropWhile isPyWs).reverse)

/-- Python `s.lower()` (ASCII case mapping; the claims exercise no
non-ASCII case folding). -/
def pyLower (s : String) : String :=
  String.mk (s.toList.map Char.toLower)

/-- Python `s.replace(pat, rep)` on character lists: left-to-right,
non-overlapping, skipping past each replacement.  Fuel-driven (one unit
per step, `length + 1` always suffices) so that it evaluates inside the
kernel. -/
def replaceAllAux (pat rep : List Char) : Nat → List Char → List Char
  | 0, cs => cs
  | _ + 1, [] => []
  | f + 1, c :: cs =>
    if pat ≠ [] ∧ pat.isPrefixOf (c :: cs) then
      rep ++ replaceAllAux pat rep f ((c :: cs).drop pat.length)
    else c :: replaceAllAux pat rep f cs

/-- Python `s.replace(pat, rep)` (for a non-empty pattern, the only use
in the program). -/
def pyReplace (s pat rep : String) : String :=
  String.mk (replaceAllAux pat.toList rep.toList (s.toList.length + 1) s.toList)

/-- The plain-text fallback of `ask` (line 259):
`raw_text.strip().replace("```json", "").replace("```", "")`. -/
def clean_text (raw : String) : String :=
  pyReplace (pyReplace (pyStrip raw) "```json" "") "```" ""

/-- Split a list at the first element satisfying `p`: returns the part
before it and the suffix starting with it. -/
def breakAtFirst (p : Char → Bool) : List Char → Option (List Char × List Char)
  | [] => none
  | c :: cs =>
    if p c then some ([], c :: cs)
    else
      match breakAtFirst p cs with
      | some (pre, suf) => some (c :: pre, suf)
      | none => none

/-- Second stage of the brace-span search: given the suffix of the text
that starts at the first open brace, cut it after its last close brace
(found as the first close brace of the reversal). -/
def braceSpanAfter (suf : List Char) : Option String :=
  match breakAtFirst (· == '\x7d') suf.reverse with
  | none => none
  | some (_, suf2) => some (String.mk suf2.reverse)

/-- The model of `re.search(r'\x7b.*\x7d', raw_text, re.DOTALL)` (line
241): with `.` matching newlines and `.*` greedy, a match exists exactly
when some close brace follows the first open brace, and the matched span
runs from the first open brace to the last close brace of the text. -/
def braceSpan (raw : String) : Option String :=
  match breakAtFirst (· == '\x7b') raw.toList with
  | none => none
  | some (_, suf) => braceSpanAfter suf

/-- The three outcomes of the Response Interpreter. -/
inductive Outcome where
  | toolCall (code params : Json)
  | structuredPayload (j : Json)
  | conversationalText (s : String)
deriving DecidableEq

instance {ε α : Type} [DecidableEq ε] [DecidableEq α] : DecidableEq (Except ε α)
  | .ok a, .ok b =>
    if h : a = b then isTrue (by rw [h]) else isFalse (by simp [h])
  | .error a, .error b =>
    if h : a = b then isTrue (by rw [h]) else isFalse (by simp [h])
  | .ok _, .error _ => isFalse (by simp)
  | .error _, .ok _ => isFalse (by simp)

/-- Substring test on character lists (for Python `key in someString`). -/
def hasInfix (needle : List Char) : List Char → Bool
  | [] => needle.isEmpty
  | c :: cs => needle.isPrefixOf (c :: cs) || hasInfix needle cs

/-- Python `key in value` for a JSON value: key test on a dict,
membership on a list, substring test on a string, `TypeError` otherwise
(e.g. `"k" in 5` raises). -/
def keyIn (k : String) (j : Json) : Except PyErr Bool :=
  match j with
  | .obj o => .ok (jlook o k).isSome
  | .arr xs => .ok (xs.contains (.str k))
  | .str s => .ok (hasInfix k.toList s.toList)
  | _ => .error .typeError

/-- Python `value[k]` subscription with a string key: dict lookup
(`KeyError` when absent), `TypeError` on any non-dict. -/
def pyIndex (j : Json) (k : String) : Except PyErr Json :=
  match j with
  | .obj o =>
    match jlook o k with
    | some v => .ok v
    | none => .error (.keyError k)
  | _ => .error (.typeError)

/-- Stage 3 of the Response Interpreter: the
`"tool_code" in r and "tool_params" in r` test of line 248 and the two
subscriptions of line 249, on the parsed value.  These may in principle
raise (hence the `Except`); the claim that they never do on a parsed
brace span is proved below, not assumed.  (Python's `and`
short-circuits; both `in` tests are side-effect-free and raise in
exactly the same cases, so sequential evaluation is observationally
identical.) -/
def classifyJson (j : Json) : Except PyErr Outcome :=
  match keyIn "tool_code" j with
  | .error e => .error e
  | .ok hc =>
    match keyIn "tool_params" j with
    | .error e => .error e
    | .ok hp =>
      if hc && hp then
        match pyIndex j "tool_code" with
        | .error e => .error e
        | .ok c =>
          match pyIndex j "tool_params" with
          | .error e => .error e
          | .ok p => .ok (.toolCall c p)
      else .ok (.structuredPayload j)

/-- Stage 2: `json.loads` on the matched span with only
`JSONDecodeError` caught (lines 245-256); a failed parse falls through
to the cleaned conversational text. -/
def classifyParsed (raw sp : String) : Except PyErr Outcome :=
  match loads sp with
  | none => .ok (.conversationalText (clean_text raw))
  | some j => classifyJson j

/-- The Response Interpreter: the classification step of `ask` (lines
241-260) applied to the raw model text — greedy brace-span search, then
the parse/shape stages above. -/
def ask_classify (raw : String) : Except PyErr Outcome :=
  match braceSpan raw with
  | none => .ok (.conversationalText (clean_text raw))
  | some sp => classifyParsed raw sp

/-- Key lookup on a parsed JSON value, used to state the claims: a value
for `k` when `j` is a dict containing `k`, else `none`. -/
def jGet (j : Json) (k : String) : Option Json :=
  match j with
  | .obj o => jlook o k
  | _ => none

/-! ## Memory Store -/

/-- The durable multi-user memory file.  `corrupt` stands for any file
content rejected by `json.load` (`JSONDecodeError`); a parsed content is
carried at the value level since `json.dump`/`json.load` of a
well-formed value round-trip. -/
inductive DiskFile where
  | missing
  | corrupt
  | json (j : Json)

/-- The in-memory state of a `SousChefAgent` together with the shared
memory file it reads and writes.  `writes` counts the file writes
performed by `_save_memory` (the effect trace behind "rewrites the
memory file").  The Python sets `pantry`, `liked_recipes` and
`disliked_recipes` are finite sets of strings — the only element type
the program ever stores in them. -/
structure AgentState where
  user_id : String
  pantry : Finset String
  liked_recipes : Finset String
  disliked_recipes : Finset String
  disk : DiskFile
  writes : Nat

/-- Python `value.get(k, default)`: works on a dict, raises
`AttributeError` on anything else (lists, strings and scalars have no
`.get`). -/
def pyGet (j : Json) (k : String) (dflt : Json) : Except PyErr Json :=
  match j with
  | .obj o => .ok ((jlook o k).getD dflt)
  | _ => .error .attributeError

/-- Python `set(x)` for the JSON values `_load_memory` can feed it,
landing in a set of strings: a list of strings becomes the set of its
elements; a string is iterable and becomes the set of its characters
(1-character strings); a dict iterates over its keys; scalars are not
iterable (`TypeError`).  A list containing non-string hashable elements
would in Python produce a set with non-string members; the program only
ever writes string lists and no claim reaches that region, so it is
modelled as an error. -/
def pySet (j : Json) : Except PyErr (Finset String) :=
  match j with
  | .arr xs =>
    if xs.all (fun e => match e with | .str _ => true | _ => false) then
      .ok (xs.filterMap (fun e => match e with | .str s => some s | _ => none)).toFinset
    else .error .typeError
  | .str s => .ok ((s.toList.map (fun c => String.mk [c])).toFinset)
  | .obj o => .ok ((o.map (fun kv => kv.1)).toFinset)
  | _ => .error .typeError

/-- `_load_memory` (lines 151-169): read the whole multi-user file; a
missing file returns early, a `JSONDecodeError` is swallowed (both leave
the fields at their `__init__` values — empty sets); otherwise the
user's record is extracted with `.get` chains and `set(...)`.  Only
`JSONDecodeError` is caught: a file that parses to a non-dict raises
`AttributeError` out of the constructor. -/
def load_memory (disk : DiskFile) (uid : String) :
    Except PyErr (Finset String × Finset String × Finset String) :=
  match disk with
  | .missing => .ok (∅, ∅, ∅)
  | .corrupt => .ok (∅, ∅, ∅)
  | .json j =>
    match pyGet j uid (.obj []) with
    | .error e => .error e
    | .ok userData =>
      match pyGet userData "pantry" (.arr []) with
      | .error e => .error e
      | .ok pv =>
        match pySet pv with
        | .error e => .error e
        | .ok p =>
          match pyGet userData "liked_recipes" (.arr []) with
          | .error e => .error e
          | .ok lv =>
            match pySet lv with
            | .error e => .error e
            | .ok l =>
              match pyGet userData "disliked_recipes" (.arr []) with
              | .error e => .error e
              | .ok dv =>
                match pySet dv with
                | .error e => .error e
                | .ok d => .ok (p, l, d)

/-- The per-user record `_save_memory` writes (line 184): the three sets
serialized as JSON string arrays.  `list(set)` enumerates in Python's
hash order; the sorted enumeration stands for it here — no claim depends
on the order, only on the collection of elements. -/
def recordJson (st : AgentState) : Json :=
  .obj [("pantry", .arr ((st.pantry.sort (· ≤ ·)).map .str)),
        ("liked_recipes", .arr ((st.liked_recipes.sort (· ≤ ·)).map .str)),
        ("disliked_recipes", .arr ((st.disliked_recipes.sort (· ≤ ·)).map .str))]

/-- The bank dict `_save_memory` starts from: `{}` when the file is
missing or corrupt, else the parsed content (`some`), or `none` when the
parsed content is not a dict — in which case the item assignment
`full_memory_bank[self.user_id] = ...` raises `TypeError`. -/
def bankOf : DiskFile → Option (List (String × Json))
  | .missing => some []
  | .corrupt => some []
  | .json (.obj o) => some o
  | .json _ => none

/-- `_save_memory` (lines 171-191): read the whole file from disk
(missing/corrupt ⇒ start from `{}`), replace only this user's entry, and
write the merged mapping back.  When the parsed disk content is not a
dict the item assignment raises `TypeError` before any write; the
in-memory sets are untouched either way. -/
def save_memory (st : AgentState) : AgentState × Option PyErr :=
  match bankOf st.disk with
  | some o =>
    ({ st with disk := .json (.obj (setKey o st.user_id (recordJson st))),
               writes := st.writes + 1 }, none)
  | none => (st, some .typeError)

/-- `item.strip().lower()` — the normal form of pantry items and recipe
names. -/
def normalizeItem (s : String) : String := pyLower (pyStrip s)

/-- `add_to_pantry` (lines 266-269): normalize every item, union into
the pantry set, then persist.  The list of normalized items is built
before the mutation, so a failing item leaves the set untouched (the
failure is raised earlier, by `pyIterStrs` at the call site). -/
def add_to_pantry (st : AgentState) (ingredients : List String) :
    AgentState × Option PyErr :=
  save_memory { st with
    pantry := st.pantry ∪ (ingredients.map normalizeItem).toFinset }

/-- `remove_from_pantry` (lines 271-275): discard each normalized item,
then persist. -/
def remove_from_pantry (st : AgentState) (ingredients : List String) :
    AgentState × Option PyErr :=
  save_memory { st with
    pantry := ingredients.foldl (fun p i => p.erase (normalizeItem i)) st.pantry }

/-- `add_feedback` (lines 277-286): normalize the recipe name; on
`like` insert into `liked_recipes` and discard from `disliked_recipes`,
on `dislike` the mirror image, on anything else touch neither set; then
persist unconditionally. -/
def add_feedback (st : AgentState) (recipe_name feedback : String) :
    AgentState × Option PyErr :=
  let r := normalizeItem recipe_name
  let st' :=
    if pyLower feedback = "like" then
      { st with liked_recipes := insert r st.liked_recipes,
                disliked_recipes := st.disliked_recipes.erase r }
    else if pyLower feedback = "dislike" then
      { st with disliked_recipes := insert r st.disliked_recipes,
                liked_recipes := st.liked_recipes.erase r }
    else st
  save_memory st'

/-- `view_pantry` (lines 193-197): the pantry contents, sorted for
display (Python's string `sorted` is code-point lexicographic, matching
`String`'s linear order). -/
def view_pantry (st : AgentState) : Json :=
  if st.pantry = ∅ then .obj [("pantry", .arr [])]
  else .obj [("pantry", .arr ((st.pantry.sort (· ≤ ·)).map .str))]

/-! ## Calendar export

`datetime.date` values are day counts in the proleptic Gregorian
calendar (day 0 is 0000-03-01), converted with the standard civil
calendar algorithms; only differences and equalities of dates matter to
the claims, never the absolute epoch. -/

def natOfDigits (cs : List Char) : Nat :=
  cs.foldl (fun a c => a * 10 + (c.toNat - 48)) 0

def isLeap (y : Nat) : Bool :=
  (y % 4 == 0 && y % 100 != 0) || y % 400 == 0

def daysInMonth (y m : Nat) : Nat :=
  if m = 2 then (if isLeap y then 29 else 28)
  else if m = 4 ∨ m = 6 ∨ m = 9 ∨ m = 11 then 30
  else 31

/-- Civil date to day count (for years ≥ 1, the only dates the program
produces). -/
def daysFromCivilN (y m d : Nat) : Nat :=
  let y' := if m ≤ 2 then y - 1 else y
  let era := y' / 400
  let yoe := y' % 400
  let mp := (m + 9) % 12
  let doy := (153 * mp + 2) / 5 + d - 1
  let doe := yoe * 365 + yoe / 4 - yoe / 100 + doy
  era * 146097 + doe

/-- Day count back to a civil date. -/
def civilFromDaysN (z : Nat) : Nat × Nat × Nat :=
  let era := z / 146097
  let doe := z % 146097
  let yoe := (doe - doe / 1460 + doe / 36524 - doe / 146096) / 365
  let y' := yoe + era * 400
  let doy := doe - (365 * yoe + yoe / 4 - yoe / 100)
  let mp := (5 * doy + 2) / 153
  let d := doy - (153 * mp + 2) / 5 + 1
  let m := if mp < 10 then mp + 3 else mp - 9
  if m ≤ 2 then (y' + 1, m, d) else (y', m, d)

def padZero (w : Nat) (n : Nat) : String :=
  let s := toString n
  String.mk (List.replicate (w - s.length) '0') ++ s

/-- `str(datetime.date)` — zero-padded ISO format. -/
def dateToStr (z : Int) : String :=
  let c := civilFromDaysN z.toNat
  padZero 4 c.1 ++ "-" ++ padZero 2 c.2.1 ++ "-" ++ padZero 2 c.2.2

/-- `datetime.strptime(s, "%Y-%m-%d").date()`: 1-4 digit year, 1-2
digit month and day, nothing else in the string, ranges validated
(`ValueError` modelled as `none`). -/
def strptimeYmd (s : String) : Option Int :=
  let cs := s.toList
  let (ys, r1) := cs.span (·.isDigit)
  if ys.length = 0 ∨ 4 < ys.length then none
  else
    match r1 with
    | '-' :: r2 =>
      let (ms, r3) := r2.span (·.isDigit)
      if ms.length = 0 ∨ 2 < ms.length then none
      else
        match r3 with
        | '-' :: r4 =>
          let (ds, r5) := r4.span (·.isDigit)
          if ds.length = 0 ∨ 2 < ds.length ∨ r5 ≠ [] then none
          else
            let y := natOfDigits ys
            let m := natOfDigits ms
            let d := natOfDigits ds
            if 1 ≤ y ∧ y ≤ 9999 ∧ 1 ≤ m ∧ m ≤ 12 ∧ 1 ≤ d ∧ d ≤ daysInMonth y m
            then some (daysFromCivilN y m d : Int)
            else none
        | _ => none
    | _ => none

/-- Python `int(x)` on the values `create_calendar_file` can meet: a
JSON number truncates toward zero (decimal model of the float lexeme), a
string must spell an optionally signed integer (`ValueError` otherwise),
a bool is 0/1, anything else is a `TypeError`. -/
def lexToInt (lx : String) : Int :=
  let cs := lx.toList
  let (neg, cs1) : Bool × List Char :=
    match cs with
    | '-' :: t => (true, t)
    | _ => (false, cs)
  let (ip, r1) := cs1.span (·.isDigit)
  let (fp, r2) : List Char × List Char :=
    match r1 with
    | '.' :: t => t.span (·.isDigit)
    | _ => ([], r1)
  let ex : Int :=
    match r2 with
    | c :: t =>
      if c = 'e' ∨ c = 'E' then
        match t with
        | '+' :: u => (natOfDigits (u.span (·.isDigit)).1 : Int)
        | '-' :: u => -(natOfDigits (u.span (·.isDigit)).1 : Int)
        | u => (natOfDigits (u.span (·.isDigit)).1 : Int)
      else 0
    | [] => 0
  let scale : Int := ex - fp.length
  let mant : Nat := natOfDigits (ip ++ fp)
  let mag : Nat :=
    if 0 ≤ scale then mant * 10 ^ scale.toNat else mant / 10 ^ (-scale).toNat
  if neg then -(mag : Int) else (mag : Int)

def strToInt (s : String) : Option Int :=
  let cs := (s.toList.dropWhile isPyWs).reverse.dropWhile isPyWs |>.reverse
  let (neg, cs1) : Bool × List Char :=
    match cs with
    | '-' :: t => (true, t)
    | '+' :: t => (false, t)
    | _ => (false, cs)
  if cs1 = [] ∨ ¬ cs1.all (·.isDigit) then none
  else some (if neg then -(natOfDigits cs1 : Int) else (natOfDigits cs1 : Int))

def pyInt (j : Json) : Except PyErr Int :=
  match j with
  | .bool b => .ok (if b then 1 else 0)
  | .num lx => .ok (lexToInt lx)
  | .str s =>
    match strToInt s with
    | some n => .ok n
    | none => .error .valueError
  | _ => .error .typeError

mutual
/-- Python `repr`, as far as the tool-result f-strings need it (string
escaping inside `repr` is not modelled; no claim inspects a message
containing a quote-bearing string). -/
def pyRepr : Json → String
  | .null => "None"
  | .bool b => if b then "True" else "False"
  | .num lx => lx
  | .str s => "\x27" ++ s ++ "\x27"
  | .arr xs => "[" ++ pyReprList xs ++ "]"
  | .obj o => "\x7b" ++ pyReprFields o ++ "\x7d"
def pyReprList : List Json → String
  | [] => ""
  | [x] => pyRepr x
  | x :: xs => pyRepr x ++ ", " ++ pyReprList xs
def pyReprFields : List (String × Json) → String
  | [] => ""
  | [(k, v)] => "\x27" ++ k ++ "\x27: " ++ pyRepr v
  | (k, v) :: xs => "\x27" ++ k ++ "\x27: " ++ pyRepr v ++ ", " ++ pyReprFields xs
end

/-- Python `str(x)` as used by f-string interpolation: the string itself
for a string, `repr` otherwise. -/
def pyStr (j : Json) : String :=
  match j with
  | .str s => s
  | _ => pyRepr j

/-- One calendar event: display name, begin date (day count), begin
time (minutes into the day) and duration (minutes). -/
structure CalEvent where
  name : String
  beginDay : Int
  beginMin : Nat
  durMin : Nat
deriving DecidableEq

/-- The date derivation of lines 365-369:
`datetime.strptime(meal.get('day_str', str(datetime.now().date())), '%Y-%m-%d')`
with `ValueError`/`TypeError` falling back to
`datetime.now().date() + timedelta(days=int(meal.get('day', 1)) - 1)`.
When the entry has no `day_str`, the `.get` default `str(today)` always
parses back to today, so the fallback only runs for a present but
unparseable (or non-string) `day_str`; an `int()` failure inside the
fallback escapes the inner handler. -/
def mealDate (today : Int) (meal : Json) : Except PyErr Int := do
  let fallback : Except PyErr Int := do
    let dv ← pyGet meal "day" (.num "1")
    let n ← pyInt dv
    .ok (today + (n - 1))
  let dayStrV ← pyGet meal "day_str" (.str (dateToStr today))
  match dayStrV with
  | .str s =>
    match strptimeYmd s with
    | some d => .ok d
    | none => fallback
  | _ => fallback

/-- One meal entry to one event (lines 362-381), in source order: the
display name from `meal['meal_type']` and `meal['meal_name']`, then the
date, then the fixed time-of-day from the lower-cased meal type
(Breakfast 08:00, Lunch 13:00, anything else 19:00), with a fixed 1-hour
duration. -/
def mealEvent (today : Int) (meal : Json) : Except PyErr CalEvent := do
  let mt ← pyIndex meal "meal_type"
  let mn ← pyIndex meal "meal_name"
  let nm := pyStr mt ++ ": " ++ pyStr mn
  let md ← mealDate today meal
  let mts ←
    match mt with
    | .str s => Except.ok s
    | _ => Except.error .attributeError
  let hour : Nat :=
    if pyLower mts = "breakfast" then 8
    else if pyLower mts = "lunch" then 13
    else 19
  .ok ⟨nm, md, hour * 60, 60⟩

/-- The success payload of `create_calendar_file`, with the
deterministic per-user output path (`os.path.join` with the platform's
separator `/`). -/
def calendarSuccess (tmp uid : String) : Json :=
  .obj [("status", .str "success"),
        ("message", .str "Calendar file created successfully."),
        ("file_path", .str (tmp ++ "/sous_chef_calendars/" ++ uid ++ "_meal_plan.ics"))]

/-- `create_calendar_file` (lines 355-398): build one event per meal
entry and write them all to the per-user file, returning a success
payload; any exception inside is caught and surfaced as an error-kind
payload, with no events written.  The first component is the written
file's events (`none` when nothing was written).  A non-list
`meal_plan` is modelled as the iteration `TypeError`; in Python a
string or dict would instead iterate and fail on the first element's
subscription, reaching the same error-kind payload. -/
def create_calendar_file (today : Int) (tmp uid : String) (meal_plan : Json) :
    Option (List CalEvent) × Json :=
  let run : Except PyErr (List CalEvent) := do
    let meals ←
      match meal_plan with
      | .arr xs => Except.ok xs
      | _ => Except.error .typeError
    meals.mapM (mealEvent today)
  match run with
  | .ok evs => (some evs, calendarSuccess tmp uid)
  | .error e =>
    (none, .obj [("status", .str "error"),
                 ("message", .str ("Failed to create calendar file: " ++ e.msg))])

/-! ## Tool dispatch -/

/-- Python iteration of the `ingredients` argument inside the list
comprehension `[item.strip().lower() for item in ingredients]`: a list
must consist of strings (a non-string item has no `.strip`,
`AttributeError`); a string iterates into its 1-character strings;
scalars are not iterable (`TypeError`).  The comprehension materializes
before `set.update`, so a failure leaves the pantry untouched. -/
def pyIterStrs (j : Json) : Except PyErr (List String) :=
  match j with
  | .arr xs =>
    if xs.all (fun e => match e with | .str _ => true | _ => false) then
      .ok (xs.filterMap (fun e => match e with | .str s => some s | _ => none))
    else .error .attributeError
  | .str s => .ok (s.toList.map (fun c => String.mk [c]))
  | _ => .error .typeError

/-- The external LLM transport behind `generate_meal_plan` and
`generate_recipe` (each re-enters `ask` with a fresh prompt).  An
oracle maps the current state and the keyword-argument dict to a new
state and either a result payload or an escaped exception; theorems
quantify over it. -/
structure LlmOracle where
  genMealPlan : AgentState → Json → AgentState × Except PyErr Json
  genRecipe : AgentState → Json → AgentState × Except PyErr Json

/-- The fixed enumerated tool set of `_call_tool`. -/
def knownTools : List String :=
  ["add_to_pantry", "remove_from_pantry", "add_feedback", "view_pantry",
   "generate_meal_plan", "generate_recipe", "create_calendar_file"]

/-- The required parameter keys of each tool, per the schema of §6:
direct subscription in `_call_tool` makes them required; the two
generator tools take only optional keyword arguments. -/
def requiredKeys (t : String) : List String :=
  if t = "add_to_pantry" ∨ t = "remove_from_pantry" then ["ingredients"]
  else if t = "add_feedback" then ["recipe_name", "feedback"]
  else if t = "create_calendar_file" then ["meal_plan"]
  else []

def successResult (msg : String) : Json :=
  .obj [("status", .str "success"), ("message", .str msg)]

/-- The `else` branch of `_call_tool` (line 229). -/
def unknownToolResult (code : Json) : Json :=
  .obj [("status", .str "error"), ("message", .str ("Unknown tool: " ++ pyStr code))]

/-- `_call_tool` (lines 199-229): the `if tool_code == ... elif ...`
dispatch chain.  A non-string tool code compares unequal to every name
and falls to the unknown-tool branch, as in Python.  The `Except`
component is an exception escaping `_call_tool` (the state component
keeps mutations already applied). -/
def call_tool (ll : LlmOracle) (today : Int) (tmp : String) (st : AgentState)
    (code params : Json) : AgentState × Except PyErr Json :=
  match code with
  | .str s =>
    if s = "add_to_pantry" then
      match pyIndex params "ingredients" with
      | .error e => (st, .error e)
      | .ok ing =>
        match pyIterStrs ing with
        | .error e => (st, .error e)
        | .ok items =>
          match add_to_pantry st items with
          | (st', some e) => (st', .error e)
          | (st', none) =>
            (st', .ok (successResult ("Added " ++ pyStr ing ++ " to pantry.")))
    else if s = "remove_from_pantry" then
      match pyIndex params "ingredients" with
      | .error e => (st, .error e)
      | .ok ing =>
        match pyIterStrs ing with
        | .error e => (st, .error e)
        | .ok items =>
          match remove_from_pantry st items with
          | (st', some e) => (st', .error e)
          | (st', none) =>
            (st', .ok (successResult ("Removed " ++ pyStr ing ++ " from pantry.")))
    else if s = "add_feedback" then
      match pyIndex params "recipe_name" with
      | .error e => (st, .error e)
      | .ok rn =>
        match pyIndex params "feedback" with
        | .error e => (st, .error e)
        | .ok fb =>
          match rn, fb with
          | .str r, .str f =>
            match add_feedback st r f with
            | (st', some e) => (st', .error e)
            | (st', none) =>
              (st', .ok (successResult
                ("Feedback for \x27" ++ r ++ "\x27 received.")))
          | _, _ => (st, .error .attributeError)
    else if s = "view_pantry" then (st, .ok (view_pantry st))
    else if s = "generate_meal_plan" then
      match params with
      | .obj _ => ll.genMealPlan st params
      | _ => (st, .error .typeError)
    else if s = "generate_recipe" then
      match params with
      | .obj _ => ll.genRecipe st params
      | _ => (st, .error .typeError)
    else if s = "create_calendar_file" then
      match pyIndex params "meal_plan" with
      | .error e => (st, .error e)
      | .ok mp => (st, .ok (create_calendar_file today tmp st.user_id mp).2)
    else (st, .ok (unknownToolResult code))
  | _ => (st, .ok (unknownToolResult code))

/-- The `except` handler of `ask` (lines 262-264): an exception escaping
the dispatched tool call is caught at the request boundary and turned
into an error payload carrying the exception message and the raw model
text. -/
def wrapResult (r : Except PyErr Json) (raw : String) : Json :=
  match r with
  | .ok j => j
  | .error e =>
    .obj [("error", .str ("Failed to get response from model: " ++ e.msg)),
          ("raw_response", .str raw)]

/-- An error-kind result payload: a `status: error` dict (`_call_tool`'s
unknown-tool branch, `create_calendar_file`'s handler) or an `error`
dict (`ask`'s request-level handler). -/
def isErrorKind (j : Json) : Bool :=
  match j with
  | .obj o =>
    (match jlook o "status" with
     | some (.str s) => s = "error"
     | _ => false) || (jlook o "error").isSome
  | _ => false

/-- `ask` minus the external transport: classify the raw model text,
dispatch a recognized tool call, and catch anything it raises (lines
236-264). -/
def ask_on_text (ll : LlmOracle) (today : Int) (tmp : String) (st : AgentState)
    (raw : String) : AgentState × Json :=
  match ask_classify raw with
  | .ok (.toolCall c p) =>
    let r := call_tool ll today tmp st c p
    (r.1, wrapResult r.2 raw)
  | .ok (.structuredPayload j) => (st, j)
  | .ok (.conversationalText t) => (st, .obj [("response", .str t)])
  | .error e => (st, wrapResult (.error e) raw)

/-! ## Fixtures for stating and witnessing the claims -/

/-- The tool-name recognition of the dispatch chain: `some` exactly for
a string naming one of the seven tools. -/
def matchTool : Json → Option String
  | .str s => if s ∈ knownTools then some s else none
  | _ => none

/-- A disk state on which `_save_memory`'s item assignment succeeds:
missing, corrupt, or holding a JSON dict. -/
def writableDisk (d : DiskFile) : Bool := (bankOf d).isSome

/-- A sequence of `add_feedback` calls, applied to the agent state
(each call persists; the in-memory sets reflect every applied call). -/
def applyFeedbacks (st : AgentState) (calls : List (String × String)) : AgentState :=
  calls.foldl (fun s nf => (add_feedback s nf.1 nf.2).1) st

/-- Modelled from the spec's words for claim C9: remove every markdown
code-fence marker, i.e. a triple backtick together with its optional
language tag (the alphabetic run following it).  Fuel-driven (one unit
per step, `length` always suffices since every step consumes at least
one character). -/
def removeFenceMarkers : Nat → List Char → List Char
  | 0, cs => cs
  | _ + 1, [] => []
  | f + 1, '\x60' :: '\x60' :: '\x60' :: cs =>
    removeFenceMarkers f (cs.dropWhile (fun c => c.isAlpha))
  | f + 1, c :: cs => c :: removeFenceMarkers f cs

/-- Modelled from the spec's words for claim C9: surrounding whitespace
stripped and code-fence markers (with their optional language tags)
removed. -/
def cleanTextPerSpec (raw : String) : String :=
  String.mk (removeFenceMarkers (pyStrip raw).toList.length ((pyStrip raw).toList))

/-- A trivial external-model oracle for witnesses. -/
def trivOracle : LlmOracle :=
  ⟨fun st _ => (st, .ok .null), fun st _ => (st, .ok .null)⟩

/-- A small concrete agent state for witnesses. -/
def stW : AgentState := ⟨"cli_user", {"rice"}, {"pie"}, {"cake"}, .missing, 0⟩

/-- A concrete agent state whose disk holds another user's record. -/
def stShared : AgentState :=
  ⟨"alice", {"rice"}, ∅, ∅,
   .json (.obj [("bob", .obj [("pantry", .arr [.str "tea"])]), ("alice", .null)]), 0⟩

/-- 2026-10-12, the concrete "today" of the calendar evaluation. -/
def today2026 : Int := (daysFromCivilN 2026 10 12 : Int)

/-! ## Theorems -/

theorem breakAtFirst_spec (p : Char → Bool) :
    ∀ cs pre suf, breakAtFirst p cs = some (pre, suf) →
      cs = pre ++ suf ∧ ∃ c cs', suf = c :: cs' ∧ p c = true := by
  intro cs
  induction cs with
  | nil => intro pre suf h; simp [breakAtFirst] at h
  | cons c cs ih =>
    intro pre suf h
    by_cases hp : p c
    · rw [breakAtFirst, if_pos hp] at h
      obtain ⟨h1, h2⟩ := Prod.mk.injEq .. ▸ Option.some.injEq .. ▸ h
      exact ⟨by rw [← h1, ← h2]; rfl, c, cs, h2.symm, hp⟩
    · rw [breakAtFirst, if_neg hp] at h
      match hrec : breakAtFirst p cs with
      | none => rw [hrec] at h; simp at h
      | some (a, b) =>
        rw [hrec] at h
        simp only [Option.some.injEq, Prod.mk.injEq] at h
        obtain ⟨h1, h2⟩ := h
        obtain ⟨hcs, hex⟩ := ih a b hrec
        subst h2
        refine ⟨?_, hex⟩
        rw [← h1, hcs]
        rfl

theorem braceSpan_head {raw : String} {sp : String} (h : braceSpan raw = some sp) :
    ∃ t, sp.toList = '\x7b' :: t := by
  unfold braceSpan at h
  match h1 : breakAtFirst (· == '\x7b') raw.toList with
  | none => rw [h1] at h; simp at h
  | some (pre, suf) =>
    rw [h1] at h
    have h' : braceSpanAfter suf = some sp := h
    obtain ⟨_, c, cs', hsuf, hc⟩ := breakAtFirst_spec _ _ _ _ h1
    simp at hc
    unfold braceSpanAfter at h'
    match h2 : breakAtFirst (· == '\x7d') suf.reverse with
    | none => rw [h2] at h'; simp at h'
    | some (pre2, suf2) =>
      rw [h2] at h'
      have h'' : some (String.mk suf2.reverse) = some sp := h'
      obtain ⟨happ, d, ds', hsuf2, _⟩ := breakAtFirst_spec _ _ _ _ h2
      have hrev : suf = suf2.reverse ++ pre2.reverse := by
        have := congrArg List.reverse happ
        simpa using this
      have hne : suf2.reverse ≠ [] := by simp [hsuf2]
      match h3 : suf2.reverse with
      | [] => exact absurd h3 hne
      | a :: t =>
        rw [h3] at hrev
        rw [hsuf, hc] at hrev
        have ha : a = '\x7b' := (List.cons.injEq .. ▸ hrev.symm).1
        refine ⟨t, ?_⟩
        have hsp : sp = String.mk (a :: t) := by
          injection h3 ▸ h'' with hh
          exact hh.symm
        rw [hsp, ha]
        rfl

theorem parseValue_obj {f : Nat} {cs r : List Char} {j : Json} {t : List Char}
    (hhead : cs = '\x7b' :: t) (h : parseValue f cs = some (j, r)) :
    ∃ o, j = .obj o := by
  match f with
  | 0 => simp [parseValue] at h
  | f + 1 =>
    subst hhead
    have h' : (match skipWs t with
        | [] => (none : Option (Json × List Char))
        | d :: r2 =>
          if d == '\x7d' then some (.obj [], r2)
          else
            match parseFieldList f (d :: r2) with
            | some (flds, r3) => some (.obj (dedupFields flds), r3)
            | none => none) = some (j, r) := h
    match h2 : skipWs t with
    | [] => rw [h2] at h'; simp at h'
    | d :: r2 =>
      rw [h2] at h'
      have h'' : (if d == '\x7d' then some (Json.obj [], r2)
          else
            match parseFieldList f (d :: r2) with
            | some (flds, r3) => some (.obj (dedupFields flds), r3)
            | none => none) = some (j, r) := h'
      by_cases hd : d == '\x7d'
      · rw [if_pos hd] at h''
        simp only [Option.some.injEq, Prod.mk.injEq] at h''
        exact ⟨[], h''.1.symm⟩
      · rw [if_neg hd] at h''
        match h3 : parseFieldList f (d :: r2) with
        | none => rw [h3] at h''; simp at h''
        | some (flds, r3) =>
          rw [h3] at h''
          simp only [Option.some.injEq, Prod.mk.injEq] at h''
          exact ⟨_, h''.1.symm⟩

theorem loads_obj {sp : String} {j : Json} (hhead : ∃ t, sp.toList = '\x7b' :: t)
    (h : loads sp = some j) : ∃ o, j = .obj o := by
  unfold loads at h
  match hp : parseValue (2 * sp.length + 4) sp.toList with
  | none => rw [hp] at h; simp at h
  | some (j', rest) =>
    rw [hp] at h
    have h' : (if skipWs rest = [] then some j' else none) = some j := h
    by_cases hr : skipWs rest = []
    · rw [if_pos hr] at h'
      obtain ⟨t, ht⟩ := hhead
      injection h' with hj
      exact hj ▸ parseValue_obj ht hp
    · rw [if_neg hr] at h'; simp at h'

/-- Claim C1: the Response Interpreter (the classification step of
`ask`, lines 241-260) is total — no exception escapes it — and maps
every raw model text to exactly one of the three outcomes: a ToolCall
when the first-brace-to-last-brace span parses to an object carrying
both the tool-name field `tool_code` and the parameters field
`tool_params`; the parsed object itself (StructuredPayload) when it
parses without both fields; and ConversationalText wrapping the cleaned
text when no span exists or its parse fails.  Totality is not by
construction: the `in` tests of line 248 would raise `TypeError` on a
parsed non-dict, and the proof rests on the fact that a span starting
with an open brace can only parse to a dict. -/
theorem c1_response_interpreter_trichotomy (raw : String) :
    (∃ sp j c p, braceSpan raw = some sp ∧ loads sp = some j ∧
        jGet j "tool_code" = some c ∧ jGet j "tool_params" = some p ∧
        ask_classify raw = .ok (.toolCall c p)) ∨
    (∃ sp j, braceSpan raw = some sp ∧ loads sp = some j ∧
        (jGet j "tool_code" = none ∨ jGet j "tool_params" = none) ∧
        ask_classify raw = .ok (.structuredPayload j)) ∨
    ((braceSpan raw = none ∨ ∃ sp, braceSpan raw = some sp ∧ loads sp = none) ∧
        ask_classify raw = .ok (.conversationalText (clean_text raw))) := by
  have lm1 : ∀ r : String, braceSpan r = none →
      ask_classify r = .ok (.conversationalText (clean_text r)) := by
    intro r h; unfold ask_classify; rw [h]
  have lm2 : ∀ (r sp : String), braceSpan r = some sp →
      ask_classify r = classifyParsed r sp := by
    intro r sp h; unfold ask_classify; rw [h]
  have lm3 : ∀ (r sp : String), loads sp = none →
      classifyParsed r sp = .ok (.conversationalText (clean_text r)) := by
    intro r sp h; unfold classifyParsed; rw [h]
  have lm4 : ∀ (r sp : String) (j : Json), loads sp = some j →
      classifyParsed r sp = classifyJson j := by
    intro r sp j h; unfold classifyParsed; rw [h]
  cases hbs : braceSpan raw with
  | none =>
    right; right
    exact ⟨Or.inl rfl, lm1 raw hbs⟩
  | some sp =>
    cases hl : loads sp with
    | none =>
      right; right
      exact ⟨Or.inr ⟨sp, rfl, hl⟩, by rw [lm2 raw sp hbs, lm3 raw sp hl]⟩
    | some j =>
      obtain ⟨o, rfl⟩ := loads_obj (braceSpan_head hbs) hl
      have hcls := lm2 raw sp hbs
      rw [lm4 raw sp _ hl] at hcls
      cases hc : jlook o "tool_code" with
      | some c =>
        cases hp : jlook o "tool_params" with
        | some p =>
          left
          refine ⟨sp, .obj o, c, p, rfl, hl, by simp [jGet, hc], by simp [jGet, hp], ?_⟩
          rw [hcls]
          simp [classifyJson, keyIn, pyIndex, hc, hp]
        | none =>
          right; left
          refine ⟨sp, .obj o, rfl, hl, Or.inr (by simp [jGet, hp]), ?_⟩
          rw [hcls]
          simp [classifyJson, keyIn, pyIndex, hc, hp]
      | none =>
        cases hp : jlook o "tool_params" with
        | some p =>
          right; left
          refine ⟨sp, .obj o, rfl, hl, Or.inl (by simp [jGet, hc]), ?_⟩
          rw [hcls]
          simp [classifyJson, keyIn, pyIndex, hc, hp]
        | none =>
          right; left
          refine ⟨sp, .obj o, rfl, hl, Or.inl (by simp [jGet, hc]), ?_⟩
          rw [hcls]
          simp [classifyJson, keyIn, pyIndex, hc, hp]

theorem save_memory_fields (st : AgentState) :
    (save_memory st).1.pantry = st.pantry ∧
    (save_memory st).1.liked_recipes = st.liked_recipes ∧
    (save_memory st).1.disliked_recipes = st.disliked_recipes := by
  cases hb : bankOf st.disk <;> simp [save_memory, hb]

theorem jlook_setKey_self (o : List (String × Json)) (k : String) (v : Json) :
    jlook (setKey o k v) k = some v := by
  induction o with
  | nil => simp [setKey, jlook]
  | cons kv t ih =>
    obtain ⟨k', w⟩ := kv
    by_cases h : k' = k
    · subst h; simp [setKey, jlook]
    · simp [setKey, jlook, h, ih]

theorem jlook_setKey_ne (o : List (String × Json)) (k : String) (v : Json)
    (b : String) (h : b ≠ k) : jlook (setKey o k v) b = jlook o b := by
  induction o with
  | nil => simp [setKey, jlook, Ne.symm h]
  | cons kv t ih =>
    obtain ⟨k', w⟩ := kv
    by_cases hk : k' = k
    · subst hk; simp [setKey, jlook, Ne.symm h]
    · simp [setKey, jlook, hk, ih]

theorem pySet_strs (l : List String) : pySet (.arr (l.map .str)) = .ok l.toFinset := by
  simp only [pySet]
  have h1 : (l.map Json.str).all
      (fun e => match e with | .str _ => true | _ => false) = true := by
    induction l with
    | nil => rfl
    | cons a t ih => simp [ih]
  rw [if_pos h1]
  have h2 : (l.map Json.str).filterMap
      (fun e => match e with | .str s => some s | _ => none) = l := by
    induction l with
    | nil => rfl
    | cons a t ih => simpa using ih
  rw [h2]

theorem add_feedback_disjoint (st : AgentState) (n f : String)
    (h : st.liked_recipes ∩ st.disliked_recipes = ∅) :
    (add_feedback st n f).1.liked_recipes ∩
      (add_feedback st n f).1.disliked_recipes = ∅ := by
  have hd : Disjoint st.liked_recipes st.disliked_recipes :=
    Finset.disjoint_iff_inter_eq_empty.mpr h
  unfold add_feedback
  by_cases h1 : pyLower f = "like"
  · simp only [if_pos h1]
    have hf := save_memory_fields
      { st with liked_recipes := insert (normalizeItem n) st.liked_recipes,
                disliked_recipes := st.disliked_recipes.erase (normalizeItem n) }
    rw [hf.2.1, hf.2.2]
    refine Finset.disjoint_iff_inter_eq_empty.mp ?_
    rw [Finset.disjoint_insert_left]
    exact ⟨Finset.not_mem_erase _ _,
      hd.mono_right (Finset.erase_subset _ _)⟩
  · by_cases h2 : pyLower f = "dislike"
    · simp only [if_neg h1, if_pos h2]
      have hf := save_memory_fields
        { st with disliked_recipes := insert (normalizeItem n) st.disliked_recipes,
                  liked_recipes := st.liked_recipes.erase (normalizeItem n) }
      rw [hf.2.1, hf.2.2]
      refine Finset.disjoint_iff_inter_eq_empty.mp ?_
      rw [Finset.disjoint_insert_right]
      exact ⟨Finset.not_mem_erase _ _,
        hd.mono_left (Finset.erase_subset _ _)⟩
    · simp only [if_neg h1, if_neg h2]
      have hf := save_memory_fields st
      rw [hf.2.1, hf.2.2]
      exact h

/-- Claim C3: starting from disjoint feedback sets, any sequence of
`add_feedback` calls keeps `liked_recipes` and `disliked_recipes`
disjoint — adding a recipe to one set discards it from the other
(lines 277-286). -/
theorem c3_feedback_disjoint_invariant (st : AgentState)
    (calls : List (String × String))
    (h : st.liked_recipes ∩ st.disliked_recipes = ∅) :
    (applyFeedbacks st calls).liked_recipes ∩
      (applyFeedbacks st calls).disliked_recipes = ∅ := by
  induction calls generalizing st with
  | nil => simpa [applyFeedbacks] using h
  | cons c cs ih =>
    have h1 := add_feedback_disjoint st c.1 c.2 h
    have hstep : applyFeedbacks st (c :: cs) =
        applyFeedbacks (add_feedback st c.1 c.2).1 cs := by
      simp [applyFeedbacks]
    rw [hstep]
    exact ih _ h1

/-- Witness for C3 at a concrete state and call sequence (a like, an
overriding dislike of the same normalized name, and an ignored
feedback value). -/
theorem c3_witness :
    stW.liked_recipes ∩ stW.disliked_recipes = ∅ ∧
    (applyFeedbacks stW [("Pie", "like"), ("pie", "dislike"), ("x", "meh")]).liked_recipes ∩
      (applyFeedbacks stW [("Pie", "like"), ("pie", "dislike"), ("x", "meh")]).disliked_recipes
      = ∅ :=
  ⟨by decide, c3_feedback_disjoint_invariant stW
    [("Pie", "like"), ("pie", "dislike"), ("x", "meh")] (by decide)⟩

/-- Claim C4: `_save_memory` (lines 171-191) reads the whole file,
replaces only this user's entry and writes the merged mapping back, so
any other user's stored record is unchanged by the persist. -/
theorem c4_save_preserves_other_users (st : AgentState)
    (o : List (String × Json)) (b : String) (r : Json)
    (hdisk : st.disk = .json (.obj o)) (hb : jlook o b = some r)
    (hne : b ≠ st.user_id) :
    (save_memory st).2 = none ∧
    ∃ o', (save_memory st).1.disk = .json (.obj o') ∧ jlook o' b = some r := by
  have hbank : bankOf st.disk = some o := by rw [hdisk]; rfl
  refine ⟨by simp [save_memory, hbank],
    setKey o st.user_id (recordJson st), by simp [save_memory, hbank], ?_⟩
  rw [jlook_setKey_ne _ _ _ _ hne]
  exact hb

/-- Witness for C4: persisting `alice`'s state leaves `bob`'s stored
record untouched. -/
theorem c4_witness :
    (save_memory stShared).2 = none ∧
    ∃ o', (save_memory stShared).1.disk = .json (.obj o') ∧
      jlook o' "bob" = some (.obj [("pantry", .arr [.str "tea"])]) :=
  c4_save_preserves_other_users stShared
    [("bob", .obj [("pantry", .arr [.str "tea"])]), ("alice", .null)]
    "bob" (.obj [("pantry", .arr [.str "tea"])]) rfl (by decide) (by decide)

/-- Claim C5: persisting the in-memory record with `_save_memory` and
reloading it with `_load_memory` for the same user yields equal pantry
and feedback sets (for any disk state on which the save's item
assignment succeeds: missing, corrupt, or a dict). -/
theorem c5_save_load_roundtrip (st : AgentState)
    (h : writableDisk st.disk = true) :
    load_memory (save_memory st).1.disk st.user_id =
      .ok (st.pantry, st.liked_recipes, st.disliked_recipes) := by
  obtain ⟨o, ho⟩ := Option.isSome_iff_exists.mp h
  have hdisk : (save_memory st).1.disk =
      .json (.obj (setKey o st.user_id (recordJson st))) := by
    simp [save_memory, ho]
  rw [hdisk]
  simp [load_memory, pyGet, jlook_setKey_self, recordJson, jlook, pySet_strs,
    Finset.sort_toFinset]

/-- Witness for C5 at a concrete state with all three sets nonempty. -/
theorem c5_witness :
    writableDisk stW.disk = true ∧
    load_memory (save_memory stW).1.disk stW.user_id =
      .ok (stW.pantry, stW.liked_recipes, stW.disliked_recipes) :=
  ⟨rfl, c5_save_load_roundtrip stW rfl⟩

/-- Claim C6 (amended): loading a missing file or a file that fails
JSON parsing yields an empty record with no error; loading is not
exception-free for every file content — a content that parses to a
non-dict raises `AttributeError` (see the counterexample). -/
theorem c6_load_missing_or_corrupt (disk : DiskFile) (uid : String)
    (h : disk = .missing ∨ disk = .corrupt) :
    load_memory disk uid = .ok (∅, ∅, ∅) := by
  rcases h with rfl | rfl <;> rfl

/-- Counterexample for C6 as stated: the file content `[]` parses as
JSON, so `JSONDecodeError` is not raised, and the subsequent
`full_memory_bank.get(...)` raises `AttributeError` out of
`_load_memory` — loading does not survive every memory-file content. -/
theorem c6_counterexample :
    load_memory (.json (.arr [])) "cli_user" = .error .attributeError := by rfl

/-- Witness for the amended C6 at the missing-file case. -/
theorem c6_witness : load_memory .missing "cli_user" = .ok (∅, ∅, ∅) :=
  c6_load_missing_or_corrupt .missing "cli_user" (Or.inl rfl)

/-- Claim C7: dispatching an unknown tool name returns the error-kind
unknown-tool payload without raising (lines 228-229); dispatching a
known tool without one of its required parameters raises `KeyError` out
of `_call_tool` with the state untouched, and the request-level handler
of `ask` (lines 262-264) turns it into an error-kind payload, so
neither case terminates the session. -/
theorem c7_unknown_tool_and_missing_params (ll : LlmOracle) (today : Int)
    (tmp : String) (st : AgentState) :
    (∀ code params : Json, matchTool code = none →
      call_tool ll today tmp st code params = (st, .ok (unknownToolResult code)) ∧
      isErrorKind (unknownToolResult code) = true) ∧
    (∀ (t : String) (o : List (String × Json)) (k raw : String),
      t ∈ knownTools → k ∈ requiredKeys t → jlook o k = none →
      ∃ e, call_tool ll today tmp st (.str t) (.obj o) = (st, .error e) ∧
        isErrorKind (wrapResult (.error e) raw) = true) := by
  constructor
  · intro code params h
    cases code with
    | str s =>
      have hmem : s ∉ knownTools := by
        intro hm
        simp [matchTool, hm] at h
      simp only [knownTools, List.mem_cons, List.not_mem_nil, or_false,
        not_or] at hmem
      obtain ⟨h1, h2, h3, h4, h5, h6, h7⟩ := hmem
      exact ⟨by simp [call_tool, h1, h2, h3, h4, h5, h6, h7], rfl⟩
    | null => exact ⟨rfl, rfl⟩
    | bool b => exact ⟨rfl, rfl⟩
    | num lx => exact ⟨rfl, rfl⟩
    | arr xs => exact ⟨rfl, rfl⟩
    | obj o => exact ⟨rfl, rfl⟩
  · intro t o k raw ht hk hnone
    simp only [knownTools, List.mem_cons, List.not_mem_nil, or_false] at ht
    rcases ht with rfl | rfl | rfl | rfl | rfl | rfl | rfl
    · simp only [requiredKeys] at hk
      simp at hk
      subst hk
      exact ⟨.keyError "ingredients", by simp [call_tool, pyIndex, hnone], rfl⟩
    · simp only [requiredKeys] at hk
      simp at hk
      subst hk
      exact ⟨.keyError "ingredients", by simp [call_tool, pyIndex, hnone], rfl⟩
    · simp only [requiredKeys] at hk
      simp at hk
      rcases hk with rfl | rfl
      · exact ⟨.keyError "recipe_name", by simp [call_tool, pyIndex, hnone], rfl⟩
      · cases hrn : jlook o "recipe_name" with
        | none =>
          exact ⟨.keyError "recipe_name", by simp [call_tool, pyIndex, hrn], rfl⟩
        | some v =>
          exact ⟨.keyError "feedback",
            by simp [call_tool, pyIndex, hrn, hnone], rfl⟩
    · simp [requiredKeys] at hk
    · simp [requiredKeys] at hk
    · simp [requiredKeys] at hk
    · simp only [requiredKeys] at hk
      simp at hk
      subst hk
      exact ⟨.keyError "meal_plan", by simp [call_tool, pyIndex, hnone], rfl⟩

/-- Witness for C7: the unknown tool `bake_cake`, and `add_feedback`
called without its required `feedback` parameter. -/
theorem c7_witness :
    (call_tool trivOracle 0 "/tmp" stW (.str "bake_cake") (.obj []) =
      (stW, .ok (unknownToolResult (.str "bake_cake"))) ∧
      isErrorKind (unknownToolResult (.str "bake_cake")) = true) ∧
    (∃ e, call_tool trivOracle 0 "/tmp" stW (.str "add_feedback")
        (.obj [("recipe_name", .str "Pie")]) = (stW, .error e) ∧
      isErrorKind (wrapResult (.error e) "some raw text") = true) :=
  ⟨(c7_unknown_tool_and_missing_params trivOracle 0 "/tmp" stW).1
      (.str "bake_cake") (.obj []) (by decide),
   (c7_unknown_tool_and_missing_params trivOracle 0 "/tmp" stW).2
      "add_feedback" [("recipe_name", .str "Pie")] "feedback" "some raw text"
      (by decide) (by decide) (by decide)⟩

/-- Claim C8: `add_to_pantry` (lines 266-269) stores the trimmed
lowercase normal form, so adding the same ingredient twice — in any
casing or surrounding whitespace, i.e. with equal normal forms — leaves
the pantry with exactly one entry for it. -/
theorem c8_add_to_pantry_idempotent (st : AgentState) (s t : String)
    (h : normalizeItem s = normalizeItem t) :
    (add_to_pantry st [s]).1.pantry = insert (normalizeItem s) st.pantry ∧
    (add_to_pantry (add_to_pantry st [s]).1 [t]).1.pantry =
      (add_to_pantry st [s]).1.pantry ∧
    (((add_to_pantry (add_to_pantry st [s]).1 [t]).1.pantry).filter
        (· = normalizeItem s)).card = 1 := by
  have hp : ∀ (st' : AgentState) (x : String),
      (add_to_pantry st' [x]).1.pantry = insert (normalizeItem x) st'.pantry := by
    intro st' x
    unfold add_to_pantry
    rw [(save_memory_fields _).1]
    simp only [List.map_cons, List.map_nil, List.toFinset_cons, List.toFinset_nil,
      insert_emptyc_eq]
    rw [Finset.insert_eq, Finset.union_comm]
  refine ⟨hp st s, ?_, ?_⟩
  · simp only [hp]
    rw [← h, Finset.insert_idem]
  · simp only [hp]
    rw [← h, Finset.insert_idem, Finset.filter_eq',
      if_pos (Finset.mem_insert_self _ _), Finset.card_singleton]

/-- Witness for C8: `" Tomato "` then `"TOMATO"` normalize alike and
leave a single `"tomato"` entry. -/
theorem c8_witness :
    normalizeItem " Tomato " = normalizeItem "TOMATO" ∧
    (add_to_pantry stW [" Tomato "]).1.pantry =
      insert (normalizeItem " Tomato ") stW.pantry ∧
    (add_to_pantry (add_to_pantry stW [" Tomato "]).1 ["TOMATO"]).1.pantry =
      (add_to_pantry stW [" Tomato "]).1.pantry ∧
    (((add_to_pantry (add_to_pantry stW [" Tomato "]).1 ["TOMATO"]).1.pantry).filter
        (· = normalizeItem " Tomato ")).card = 1 :=
  ⟨by decide, c8_add_to_pantry_idempotent stW " Tomato " "TOMATO" (by decide)⟩

/-- Claim C9 (amended): on the plain-text fallback the outcome is
ConversationalText of the stripped input with the literal substring
found by `replace("```json", "")` removed and then every remaining
triple backtick removed; the only language tag removed together with
its fence is `json` — any other tag (e.g. `python`) stays in the text
(see the counterexample). -/
theorem c9_fallback_cleaning (raw : String)
    (h : braceSpan raw = none ∨ ∃ sp, braceSpan raw = some sp ∧ loads sp = none) :
    ask_classify raw = .ok (.conversationalText
      (pyReplace (pyReplace (pyStrip raw) "```json" "") "```" "")) := by
  rcases h with h | ⟨sp, h1, h2⟩
  · have e1 : ask_classify raw = .ok (.conversationalText (clean_text raw)) := by
      unfold ask_classify; rw [h]
    rw [e1]
    rfl
  · have e1 : ask_classify raw = classifyParsed raw sp := by
      unfold ask_classify; rw [h1]
    have e2 : classifyParsed raw sp = .ok (.conversationalText (clean_text raw)) := by
      unfold classifyParsed; rw [h2]
    rw [e1, e2]
    rfl

/-- Counterexample for C9 as stated: on `"```python\nhi\n```"` the code
leaves the language tag `python` in the cleaned text, while removing
code-fence markers with their optional language tag (the claim's
cleaning, `cleanTextPerSpec`) would drop it. -/
theorem c9_counterexample :
    ask_classify "```python\nhi\n```" =
      .ok (.conversationalText "python\nhi\n") ∧
    cleanTextPerSpec "```python\nhi\n```" = "\nhi\n" ∧
    ("python\nhi\n" : String) ≠ "\nhi\n" :=
  ⟨by decide, by decide, by decide⟩

/-- Witness for the amended C9 at a fence-wrapped non-JSON text (the
span parse fails, and both fence literals are removed). -/
theorem c9_witness :
    (braceSpan "no braces at all" = none ∨
      ∃ sp, braceSpan "no braces at all" = some sp ∧ loads sp = none) ∧
    ask_classify "no braces at all" = .ok (.conversationalText
      (pyReplace (pyReplace (pyStrip "no braces at all") "```json" "") "```" "")) :=
  ⟨Or.inl (by decide), c9_fallback_cleaning "no braces at all" (Or.inl (by decide))⟩

/-- Claim C10: `add_feedback` with a feedback value that lower-cases to
neither `like` nor `dislike` (lines 280-286) leaves both feedback sets
unchanged yet still rewrites the memory file, and the dispatching
`_call_tool` branch (lines 212-215) reports a success-status payload. -/
theorem c10_invalid_feedback_still_saves (ll : LlmOracle) (today : Int)
    (tmp : String) (st : AgentState) (name fb : String)
    (hw : writableDisk st.disk = true)
    (h1 : pyLower fb ≠ "like") (h2 : pyLower fb ≠ "dislike") :
    (call_tool ll today tmp st (.str "add_feedback")
      (.obj [("recipe_name", .str name), ("feedback", .str fb)])).1.liked_recipes
      = st.liked_recipes ∧
    (call_tool ll today tmp st (.str "add_feedback")
      (.obj [("recipe_name", .str name), ("feedback", .str fb)])).1.disliked_recipes
      = st.disliked_recipes ∧
    (call_tool ll today tmp st (.str "add_feedback")
      (.obj [("recipe_name", .str name), ("feedback", .str fb)])).1.writes
      = st.writes + 1 ∧
    (call_tool ll today tmp st (.str "add_feedback")
      (.obj [("recipe_name", .str name), ("feedback", .str fb)])).1.disk
      = .json (.obj (setKey ((bankOf st.disk).getD []) st.user_id (recordJson st))) ∧
    (call_tool ll today tmp st (.str "add_feedback")
      (.obj [("recipe_name", .str name), ("feedback", .str fb)])).2
      = .ok (successResult ("Feedback for \x27" ++ name ++ "\x27 received.")) := by
  obtain ⟨o, ho⟩ := Option.isSome_iff_exists.mp hw
  have hcall : call_tool ll today tmp st (.str "add_feedback")
      (.obj [("recipe_name", .str name), ("feedback", .str fb)]) =
      ({ st with disk := .json (.obj (setKey o st.user_id (recordJson st))),
                 writes := st.writes + 1 },
       .ok (successResult ("Feedback for \x27" ++ name ++ "\x27 received."))) := by
    simp [call_tool, pyIndex, jlook, add_feedback, h1, h2, save_memory, ho]
  rw [hcall, ho]
  simp

/-- Witness for C10: feedback `"meh"` for `"Pie"` at a concrete state. -/
theorem c10_witness :
    writableDisk stW.disk = true ∧
    (call_tool trivOracle 0 "/tmp" stW (.str "add_feedback")
      (.obj [("recipe_name", .str "Pie"), ("feedback", .str "meh")])).1.liked_recipes
      = stW.liked_recipes ∧
    (call_tool trivOracle 0 "/tmp" stW (.str "add_feedback")
      (.obj [("recipe_name", .str "Pie"), ("feedback", .str "meh")])).1.writes
      = stW.writes + 1 ∧
    (call_tool trivOracle 0 "/tmp" stW (.str "add_feedback")
      (.obj [("recipe_name", .str "Pie"), ("feedback", .str "meh")])).2
      = .ok (successResult "Feedback for \x27Pie\x27 received.") := by
  have h := c10_invalid_feedback_still_saves trivOracle 0 "/tmp" stW "Pie" "meh"
    rfl (by decide) (by decide)
  exact ⟨rfl, h.1, h.2.2.1, h.2.2.2.2⟩

/-- Claim C2 (evaluation at the failing input): a meal entry
`day: 2, meal_type: "Lunch", meal_name: "Soup"` with no explicit date,
on today = 2026-10-12, produces an event starting at 13:00 **on today**
with a 1-hour duration — not on today + 1 day as the claim states.  The
`.get` default `str(datetime.now().date())` always parses, so the
`today + (day − 1)` fallback of line 369 is dead for entries without a
`day_str`, and the required `day` field of the tool schema is ignored. -/
theorem c2_calendar_date_eval :
    create_calendar_file today2026 "/tmp" "cli_user"
      (.arr [.obj [("day", .num "2"), ("meal_type", .str "Lunch"),
                   ("meal_name", .str "Soup")]]) =
      (some [⟨"Lunch: Soup", today2026, 13 * 60, 60⟩],
        calendarSuccess "/tmp" "cli_user") ∧
    today2026 ≠ today2026 + 1 := by
  refine ⟨by decide, by omega⟩

end SousChef
